import Mathlib

/-!
# MeliDiscount utility scripts: a shallow embedding

This file embeds the two scripts of the repository in Lean and proves the
specified properties about them.

* `load_test.py` — an asynchronous load tester: it resolves a list of item
  identifiers, splits it into batches, fires `concurrency × runs × batches`
  GET requests, collects per-request elapsed times and prints summary
  statistics (mean, median, 95th percentile, min, max, in milliseconds).
* `main.py` — a fixture seeder: it deterministically builds root and leaf
  categories and generates `sellers × products_per_seller` random products
  referencing the leaf categories.

Modelling conventions:

* elapsed times, prices and timestamps are rationals (`ℚ`), standing for the
  real-number values the Python floats approximate;
* timestamps are rational day counts; `datetime.isoformat` maps them to
  strings monotonically, so ordering and day offsets are preserved;
* the unseeded global `random` generator is an oracle (`RandomStream`):
  `random.randint(a, b)` applied to a raw draw `k` yields `a + k % (b-a+1)`,
  which ranges over exactly `[a, b]`; `random.choice(seq)` applied to a draw
  `k` yields `seq[k % len(seq)]`;
* Python calls that raise (`statistics` on too few data points) are embedded
  as `Option`-valued functions returning `none`;
* the HTTP transport is an ambient `Response` environment: the status code,
  elapsed wall-clock time and payload size the server produces for a given
  worker, iteration and batch.  Transport-level failures abort the whole run
  and are outside the per-sample model.
-/

namespace MeliDiscount

/-! ## load_test.py : resolving the ID source (lines 70-80) -/

/-- Python `str.strip()`: drop leading and trailing whitespace.  (Embedded on
the character list; `String.trim` in core is not kernel-reducible.) -/
def pyStrip (s : String) : String :=
  ⟨(((s.data.dropWhile Char.isWhitespace).reverse).dropWhile Char.isWhitespace).reverse⟩

/-- `[line.strip() for line in Path(args.ids_file).read_text().splitlines()
if line.strip()]` (line 73): strip each line, discard the ones that strip to
the empty (falsy) string. -/
def cleanLines (lines : List String) : List String :=
  lines.filterMap (fun line => if pyStrip line = "" then none else some (pyStrip line))

/-- `ids = [f"MLA{i}" for i in range(args.num_ids)]` (line 77). -/
def syntheticIds (numIds : Nat) : List String :=
  (List.range numIds).map (fun i => "MLA" ++ toString i)

/-- The ID-source resolution of `run_load_test` (lines 72-77):

```
if args.ids_file:   ids = cleaned file lines
elif args.ids:      ids = args.ids
else:               ids = synthetic MLA ids
```

`ids_file = some fileLines` models a supplied `--ids-file` (a non-empty path
string, truthy in Python) together with the lines of that file; `ids` models
`args.ids`, where `none` (flag absent) and `some []` (empty list) are both
falsy, so both fall through to synthetic generation. -/
def resolve_ids (ids_file : Option (List String)) (ids : Option (List String))
    (num_ids : Nat) : List String :=
  match ids_file with
  | some fileLines => cleanLines fileLines
  | none =>
    match ids with
    | some (x :: xs) => x :: xs
    | _ => syntheticIds num_ids

/-! ## load_test.py : the batcher (line 83) -/

/-- `batches = [ids[i : i + args.batch_size] for i in range(0, len(ids),
args.batch_size)]` (line 83).  For a positive step, `range(0, n, step)` is
exactly the multiples of `step` below `n`, in order, and the slice
`ids[i : i + bs]` is `(ids.drop i).take bs`. -/
def makeBatches (ids : List String) (bs : Nat) : List (List String) :=
  ((List.range ids.length).filter (fun i => i % bs == 0)).map
    (fun i => (ids.drop i).take bs)

/-! ## load_test.py : requests, workers and the run (lines 40-93) -/

/-- One `WARN: HTTP {status} taking {elapsed*1000:.2f} ms (payload {n} B)`
line on stderr (lines 50-53), by its three data fields. -/
structure Warn where
  status : Nat
  elapsedMs : ℚ
  payloadBytes : Nat
deriving DecidableEq

/-- What one call of `request_once` produces: the elapsed seconds it returns
(always appended to the results by the caller) and the stderr lines it
emits. -/
structure RequestOutcome where
  elapsed : ℚ
  stderr : List Warn
deriving DecidableEq

/-- `request_once` (lines 40-54), given the ambient response: returns the
elapsed time unconditionally; if the status code is not 200 it first prints
one warning carrying the status, the elapsed milliseconds and the payload
size.  There is no retry: one call, one measurement. -/
def request_once (status : Nat) (elapsed : ℚ) (payloadLen : Nat) : RequestOutcome :=
  { elapsed := elapsed
    stderr := if status ≠ 200 then [⟨status, elapsed * 1000, payloadLen⟩] else [] }

/-- The ambient outcome of one HTTP GET: status code, elapsed wall-clock
seconds, response payload size in bytes. -/
structure Response where
  status : Nat
  elapsed : ℚ
  payloadLen : Nat

/-- `worker` (lines 57-67): for each of `iterations` passes, issue one
request per batch in order and append its elapsed time to the results.
`respond it batch` is the ambient response to that batch on that pass. -/
def worker_results (respond : Nat → List String → Response) (iterations : Nat)
    (batches : List (List String)) : List ℚ :=
  (List.range iterations).flatMap (fun it =>
    batches.map (fun batch =>
      (request_once (respond it batch).status (respond it batch).elapsed
        (respond it batch).payloadLen).elapsed))

/-- `run_load_test` (lines 85-93): `concurrency` workers, each doing `runs`
iterations over the shared batch list, all appending to one results list.
The asyncio interleaving of the appends is unspecified; the collection is
used only as a multiset, and we take the per-worker lists in worker order.
`respond w it batch` is the ambient response to worker `w`'s request. -/
def run_load_test_results (respond : Nat → Nat → List String → Response)
    (concurrency runs : Nat) (batches : List (List String)) : List ℚ :=
  (List.range concurrency).flatMap (fun w => worker_results (respond w) runs batches)

/-! ## load_test.py : summary statistics (lines 96-105) -/

/-- Python `sorted` on rationals.  Insertion sort is stable like Python's
sort; on a linearly ordered type of values any stable sort yields this
list. -/
def pySorted (l : List ℚ) : List ℚ := List.insertionSort (· ≤ ·) l

/-- `statistics.mean(data)`: the exact sum divided by the count;
`StatisticsError` (here `none`) when the data is empty. -/
def pyMean (l : List ℚ) : Option ℚ :=
  if l.length = 0 then none else some (l.sum / l.length)

/-- `statistics.median(data)`: sort, then the middle element for odd length
and the average of the two middle elements for even length; error on
empty data. -/
def pyMedian (l : List ℚ) : Option ℚ :=
  if l.length = 0 then none
  else
    let data := pySorted l
    if l.length % 2 = 1 then some (data.getD (l.length / 2) 0)
    else some ((data.getD (l.length / 2 - 1) 0 + data.getD (l.length / 2) 0) / 2)

/-- `statistics.quantiles(data, n=20, method="inclusive")` (line 102):
errors on fewer than two data points; otherwise sorts, sets `m = len - 1`,
and for each `i` in `1..19` computes `j, delta = divmod(i * m, 20)` and the
cut point `(data[j] * (20 - delta) + data[j + 1] * delta) / 20`. -/
def pyQuantiles20 (l : List ℚ) : Option (List ℚ) :=
  if l.length < 2 then none
  else
    let data := pySorted l
    let m := l.length - 1
    some ((List.range' 1 19).map (fun i =>
      (data.getD (i * m / 20) 0 * ((20 : ℚ) - (i * m % 20 : ℕ)) +
        data.getD (i * m / 20 + 1) 0 * (i * m % 20 : ℕ)) / 20))

/-- Python built-in `min` over a list: `none` (a `ValueError`) on the empty
list, otherwise the least element, folded left exactly as the builtin
scans. -/
def pyMin (l : List ℚ) : Option ℚ := l.min?

/-- Python built-in `max` over a list, as `pyMin`. -/
def pyMax (l : List ℚ) : Option ℚ := l.max?

/-- The figures `print_summary` displays (lines 96-105), all in
milliseconds. -/
structure Summary where
  requests : Nat
  meanMs : ℚ
  medianMs : ℚ
  p95Ms : ℚ
  minMs : ℚ
  maxMs : ℚ
deriving DecidableEq

/-- `print_summary` (lines 96-105): the count and the five statistics, each
scaled by 1000, in the order the code computes them.  If any statistics call
raises, the run dies with that exception and no complete summary is ever
produced: the whole result is `none` (in particular nothing silently
defaults to zero). -/
def print_summary (times : List ℚ) : Option Summary :=
  (pyMean times).bind fun mean =>
  (pyMedian times).bind fun med =>
  (pyQuantiles20 times).bind fun qs =>
  (pyMin times).bind fun mn =>
  (pyMax times).bind fun mx =>
  some ⟨times.length, mean * 1000, med * 1000, qs.getD 18 0 * 1000, mn * 1000, mx * 1000⟩

/-! ## Reference statistics

Independent renderings of the statistics named by the specification, to
compare `print_summary` against: the mean is the sum over the count; the
median reads the sorted data at the two (possibly equal) middle positions;
the 95th percentile is cut point `i = 19` (index 18 of the 19 cut points) of
the 20-bucket inclusive linear-interpolation method, which needs at least
two data points; the minimum and maximum are the ends of the sorted data. -/

/-- Reference mean: sum over count, undefined on empty data. -/
def refMean (l : List ℚ) : Option ℚ :=
  if l = [] then none else some (l.sum / l.length)

/-- Reference median: the average of the sorted data at positions
`(len - 1) / 2` and `len / 2` (equal positions when the length is odd). -/
def refMedian (l : List ℚ) : Option ℚ :=
  if l = [] then none
  else some (((pySorted l).getD ((l.length - 1) / 2) 0 +
    (pySorted l).getD (l.length / 2) 0) / 2)

/-- Reference 95th percentile: the inclusive-method cut point `i = 19` of 20
buckets, interpolating the sorted data between indices `j = 19 * (len-1) / 20`
and `j + 1` with weight `delta = 19 * (len-1) % 20`; it needs at least two
data points. -/
def refP95 (l : List ℚ) : Option ℚ :=
  if l.length < 2 then none
  else
    some (((pySorted l).getD (19 * (l.length - 1) / 20) 0 *
        ((20 : ℚ) - (19 * (l.length - 1) % 20 : ℕ)) +
      (pySorted l).getD (19 * (l.length - 1) / 20 + 1) 0 *
        (19 * (l.length - 1) % 20 : ℕ)) / 20)

/-- The summary the specification describes: count, and the five reference
statistics, each scaled to milliseconds. -/
def refSummary (l : List ℚ) : Option Summary :=
  (refMean l).bind fun mean =>
  (refMedian l).bind fun med =>
  (refP95 l).bind fun p =>
  (pySorted l).head?.bind fun mn =>
  (pySorted l).getLast?.bind fun mx =>
  some ⟨l.length, mean * 1000, med * 1000, p * 1000, mn * 1000, mx * 1000⟩

instance : Std.Antisymm (fun (a b : ℚ) => a ≤ b) := ⟨fun h h' => le_antisymm h h'⟩

/-! ## main.py : the category factory (lines 112-149) -/

/-- A category of `main.py` (lines 19-40).  A `path_from_root` or
`children_categories` entry is the one-key dict `{"id": <category id>}`,
modelled by that id. -/
structure Category where
  id : String
  name : String
  path_from_root : List String
  children_categories : List String
deriving DecidableEq

/-- Python `f"{n:02}"`: the decimal digits, zero-padded to width two. -/
def pad2 (n : Nat) : String := if n < 10 then "0" ++ toString n else toString n

/-- `root_id = f"MLA{1000 + r}"` (line 125). -/
def rootId (r : Nat) : String := "MLA" ++ toString (1000 + r)

/-- `leaf_id = f"MLA{r:02}{l:02}00"` (line 137). -/
def leafId (r l : Nat) : String := "MLA" ++ pad2 r ++ pad2 l ++ "00"

/-- `categories[root_id]["children_categories"].append({"id": leaf_id})`
(line 147): the in-place mutation of the stored root's children list,
on the insertion-ordered association list that models the Python dict. -/
def addChild (cats : List (String × Category)) (key child : String) :
    List (String × Category) :=
  cats.map (fun p =>
    if p.1 = key then
      (p.1, { p.2 with children_categories := p.2.children_categories ++ [child] })
    else p)

/-- `CategoryFactory.create_categories` (lines 119-149): for `r` in
`1..roots` create the root (empty children), then for `l` in
`1..leaves_per_root` create the leaf with path `[root, leaf]`, record its id
and append it to the root's children.  The dict is an insertion-ordered
association list (all keys are distinct); the second component is the flat
leaf-id list. -/
def create_categories (roots leaves_per_root : Nat) :
    List (String × Category) × List String :=
  (List.range' 1 roots).foldl
    (fun acc r =>
      let rid := rootId r
      let withRoot : List (String × Category) × List String :=
        (acc.1 ++ [(rid, ⟨rid, "Root Category " ++ toString r, [rid], []⟩)], acc.2)
      (List.range' 1 leaves_per_root).foldl
        (fun acc2 l =>
          let lid := leafId r l
          let leaf : Category :=
            ⟨lid, "Leaf Category " ++ toString r ++ "-" ++ toString l, [rid, lid], []⟩
          (addChild (acc2.1 ++ [(lid, leaf)]) rid lid, acc2.2 ++ [lid]))
        withRoot)
    ([], [])

/-! ## main.py : the random generator and the product factory -/

/-- A product of `main.py` (lines 43-72). -/
structure Product where
  id : String
  seller_id : String
  title : String
  category_id : String
  price : ℚ
  date_created : ℚ
  last_updated : ℚ
deriving DecidableEq

/-- `RandomDataGenerator.PRODUCT_ADJECTIVES` (line 81). -/
def PRODUCT_ADJECTIVES : List String := ["Super", "Mega", "Ultra", "Pro", "Basic", "Smart"]

/-- `RandomDataGenerator.PRODUCT_ITEMS` (line 82). -/
def PRODUCT_ITEMS : List String := ["Laptop", "Phone", "Chair", "Watch", "Headphones", "Shoes"]

/-- `random.randint(a, b)` applied to a raw draw `k`: some value of
`[a, b]`, both ends inclusive. -/
def pyRandint (a b k : Nat) : Nat := a + k % (b - a + 1)

/-- `random.choice(seq)` applied to a raw draw `k`: `seq[k % len(seq)]`.
On an empty sequence Python raises; the default is never read where the
seeder calls this (its vocabularies and leaf list are non-empty). -/
def pyChoice (l : List String) (k : Nat) : String := l.getD (k % l.length) ""

/-- Python `round(x, 2)` on an exact value: round `100 x` to the nearest
integer and divide back.  (Float `round` breaks exact ties to even; no
property here depends on tie behaviour.) -/
def round2 (x : ℚ) : ℚ := (round (x * 100) : ℤ) / 100

/-- The raw draws the unseeded global `random` generator hands to each call
site, indexed by the running product number. -/
structure RandomStream where
  adjDraw : Nat → Nat
  itemDraw : Nat → Nat
  catDraw : Nat → Nat
  priceDraw : Nat → ℚ
  daysAgoDraw : Nat → Nat
  updDraw : Nat → Nat

/-- `RandomDataGenerator.generate_dates` (lines 88-97), with the two
`randint` results passed in: `date_created = utcnow - days_ago` days and
`last_updated = date_created + upd` days, as rational day counts (the
`isoformat` strings preserve order and offsets). -/
def generate_dates (now : ℚ) (days_ago upd : Nat) : ℚ × ℚ :=
  (now - days_ago, now - days_ago + upd)

/-- `RandomDataGenerator.generate_seller_ids` (lines 84-85):
`SELLER_1 .. SELLER_count`. -/
def generate_seller_ids (count : Nat) : List String :=
  (List.range' 1 count).map (fun i => "SELLER_" ++ toString i)

/-- `ProductFactory.create_product` (lines 159-173): id `MLA{index}`, the
given seller, a random `adjective item` title, a random leaf category, a
price `round(uniform(10, 2000), 2)` and the two generated dates. -/
def create_product (leaf_category_ids : List String) (rs : RandomStream) (now : ℚ)
    (product_index : Nat) (seller_id : String) : Product :=
  { id := "MLA" ++ toString product_index
    seller_id := seller_id
    title := pyChoice PRODUCT_ADJECTIVES (rs.adjDraw product_index) ++ " " ++
      pyChoice PRODUCT_ITEMS (rs.itemDraw product_index)
    category_id := pyChoice leaf_category_ids (rs.catDraw product_index)
    price := round2 (rs.priceDraw product_index)
    date_created := (generate_dates now (pyRandint 30 365 (rs.daysAgoDraw product_index))
      (pyRandint 1 29 (rs.updDraw product_index))).1
    last_updated := (generate_dates now (pyRandint 30 365 (rs.daysAgoDraw product_index))
      (pyRandint 1 29 (rs.updDraw product_index))).2 }

/-- The product loop of `ProductSeeder.run` (lines 235-239): for each seller
in order, `per` products, the global `product_index` starting at `idx` and
incremented once per product. -/
def seedProducts (pf : Nat → String → Product) :
    List String → Nat → Nat → List Product
  | [], _, _ => []
  | s :: rest, per, idx =>
      ((List.range per).map (fun j => pf (idx + j) s)) ++
        seedProducts pf rest per (idx + per)

/-- `ProductSeeder` (lines 203-243): build the categories, then run the
product loop over `generate_seller_ids num_sellers` with the global index
starting at 1.  The products are returned in generation order; the repository
stores them keyed by their (distinct) ids. -/
def productSeeder_run (num_sellers products_per_seller roots leaves_per_root : Nat)
    (rs : RandomStream) (now : ℚ) : List Product :=
  seedProducts
    (create_product (create_categories roots leaves_per_root).2 rs now)
    (generate_seller_ids num_sellers) products_per_seller 1

end MeliDiscount

namespace MeliDiscount

/-! ## Helper lemmas -/

theorem sum_map_const {α : Type} (l : List α) (c : Nat) :
    (l.map (fun _ => c)).sum = l.length * c := by
  induction l with
  | nil => simp
  | cons x xs ih => simp [ih]; ring

theorem worker_results_length (respond : Nat → List String → Response)
    (iterations : Nat) (batches : List (List String)) :
    (worker_results respond iterations batches).length = iterations * batches.length := by
  simp [worker_results, List.length_flatMap, Function.comp_def, sum_map_const]

/-! ## Claim theorems -/

theorem filter_mod_range'_small (n b : Nat) (h0 : 0 < n) (hnb : n ≤ b) :
    (List.range' 0 n).filter (fun i => i % b == 0) = [0] := by
  obtain ⟨m, rfl⟩ : ∃ m, n = m + 1 := ⟨n - 1, by omega⟩
  rw [List.range'_succ, List.filter_cons]
  have h0b : ((0 : Nat) % b == 0) = true := by simp
  rw [if_pos h0b]
  have hrest : (List.range' (0 + 1) m).filter (fun i => i % b == 0) = [] := by
    rw [List.filter_eq_nil_iff]
    intro a ha
    rcases List.mem_range'.mp ha with ⟨i, hi, rfl⟩
    have h2 : 0 + 1 + 1 * i < b := by omega
    simp only [beq_iff_eq]
    rw [Nat.mod_eq_of_lt h2]
    omega
  rw [hrest]

theorem makeBatches_of_le (ids : List String) (b : Nat) (h0 : ids ≠ [])
    (hb : ids.length ≤ b) : makeBatches ids b = [ids] := by
  rw [makeBatches, List.range_eq_range',
    filter_mod_range'_small _ b (List.length_pos.mpr h0) hb]
  simp [List.take_of_length_le hb]

theorem makeBatches_cons (ids : List String) (b : Nat) (hb : 0 < b)
    (hlt : b < ids.length) :
    makeBatches ids b = ids.take b :: makeBatches (ids.drop b) b := by
  rw [makeBatches, List.range_eq_range']
  have hsplit : List.range' 0 ids.length =
      List.range' 0 b ++ List.range' b (ids.length - b) := by
    have h := List.range'_append 0 b (ids.length - b) 1
    simp only [Nat.one_mul, Nat.zero_add] at h
    have h2 : ids.length - b + b = ids.length := by omega
    rw [h2] at h
    exact h.symm
  rw [hsplit, List.filter_append, filter_mod_range'_small b b hb le_rfl,
    List.range'_eq_map_range, List.filter_map]
  have hcongr : (List.range (ids.length - b)).filter
        ((fun i => i % b == 0) ∘ (fun x => b + x)) =
      (List.range (ids.length - b)).filter (fun i => i % b == 0) := by
    apply List.filter_congr
    intro x _
    simp [Nat.add_mod_left]
  rw [hcongr, List.map_append, List.map_map]
  have hhead : ((List.drop 0 ids).take b) = ids.take b := by rw [List.drop_zero]
  have htail : ∀ i, ((fun i => (ids.drop i).take b) ∘ (fun x => b + x)) i =
      (fun i => ((ids.drop b).drop i).take b) i := by
    intro i
    simp [Function.comp_def, List.drop_drop]
  rw [List.map_congr_left (fun i _ => htail i)]
  rw [makeBatches, List.length_drop]
  simp [hhead]

/-- C2, the batcher properties, proved by strong induction on the list
length: batch count, batch size bound, all-but-last exactness, and
concatenation. -/
theorem makeBatches_spec (ids : List String) (b : Nat)
    (hids : ids ≠ []) (hb : 0 < b) :
    (makeBatches ids b).length = (ids.length + b - 1) / b ∧
    (∀ batch ∈ makeBatches ids b, batch.length ≤ b) ∧
    (∀ i, i + 1 < (makeBatches ids b).length →
      ((makeBatches ids b).getD i []).length = b) ∧
    (makeBatches ids b).flatten = ids := by
  have main : ∀ n (l : List String), l.length = n → l ≠ [] →
      (makeBatches l b).length = (l.length + b - 1) / b ∧
      (∀ batch ∈ makeBatches l b, batch.length ≤ b) ∧
      (∀ i, i + 1 < (makeBatches l b).length →
        ((makeBatches l b).getD i []).length = b) ∧
      (makeBatches l b).flatten = l := by
    intro n
    induction n using Nat.strong_induction_on with
    | _ n ih =>
      intro l hlen hne
      by_cases hcase : l.length ≤ b
      · rw [makeBatches_of_le l b hne hcase]
        have hpos := List.length_pos.mpr hne
        refine ⟨?_, ?_, ?_, by simp⟩
        · have h1 : 1 * b ≤ l.length + b - 1 := by omega
          have h2 : l.length + b - 1 < (1 + 1) * b := by omega
          simpa using (Nat.div_eq_of_lt_le h1 h2).symm
        · intro batch hbatch
          rw [List.mem_singleton] at hbatch
          subst hbatch
          exact hcase
        · intro i hi
          simp at hi
      · push_neg at hcase
        rw [makeBatches_cons l b hb hcase]
        have hdroplen : (l.drop b).length = l.length - b := List.length_drop b l
        have hdropne : l.drop b ≠ [] :=
          List.ne_nil_of_length_pos (by omega)
        obtain ⟨ih1, ih2, ih3, ih4⟩ :=
          ih (l.length - b) (by omega) (l.drop b) hdroplen hdropne
        refine ⟨?_, ?_, ?_, ?_⟩
        · simp only [List.length_cons, ih1, hdroplen]
          have heq : l.length + b - 1 = (l.length - b + b - 1) + b := by omega
          rw [heq, Nat.add_div_right _ hb]
        · intro batch hbatch
          rcases List.mem_cons.mp hbatch with rfl | hm
          · rw [List.length_take]
            omega
          · exact ih2 batch hm
        · intro i hi
          cases i with
          | zero =>
            rw [List.getD_cons_zero, List.length_take]
            omega
          | succ j =>
            rw [List.length_cons] at hi
            rw [List.getD_cons_succ]
            exact ih3 j (by omega)
        · rw [List.flatten_cons, ih4]
          exact List.take_append_drop b l
  exact main ids.length ids rfl hids

/-- Witness for C2 at `ids = ["a", "b", "c"]`, `b = 2`. -/
theorem makeBatches_spec_witness :
    ((["a", "b", "c"] : List String) ≠ [] ∧ 0 < 2) ∧
    ((makeBatches ["a", "b", "c"] 2).length =
        ((["a", "b", "c"] : List String).length + 2 - 1) / 2 ∧
      (∀ batch ∈ makeBatches ["a", "b", "c"] 2, batch.length ≤ 2) ∧
      (∀ i, i + 1 < (makeBatches ["a", "b", "c"] 2).length →
        ((makeBatches ["a", "b", "c"] 2).getD i []).length = 2) ∧
      (makeBatches ["a", "b", "c"] 2).flatten = ["a", "b", "c"]) :=
  ⟨⟨by decide, by decide⟩, makeBatches_spec ["a", "b", "c"] 2 (by decide) (by decide)⟩

/-- C1, counterexample: with both a file (one line `F1`) and an inline list
(`I1`) supplied, `run_load_test` uses the file's identifiers, not the inline
list — the code tests `args.ids_file` before `args.ids`, so the spec's
priority order (inline first, then file) does not hold. -/
theorem resolve_ids_not_inline_first :
    resolve_ids (some ["F1"]) (some ["I1"]) 0 ≠ ["I1"] ∧
    resolve_ids (some ["F1"]) (some ["I1"]) 0 = ["F1"] := by decide

/-- C1, amended: the load generator resolves its identifiers from exactly one
source in priority order file first, then inline list, then synthetic
generation; in particular, when both an inline list and an ID file are
supplied, the identifiers used are the file's (trimmed, blank lines
dropped). -/
theorem resolve_ids_priority (fileLines ids : List String) (n : Nat) :
    resolve_ids (some fileLines) (some ids) n = cleanLines fileLines ∧
    resolve_ids (some fileLines) none n = cleanLines fileLines ∧
    (ids ≠ [] → resolve_ids none (some ids) n = ids) ∧
    resolve_ids none (some []) n = syntheticIds n ∧
    resolve_ids none none n = syntheticIds n := by
  refine ⟨rfl, rfl, ?_, rfl, rfl⟩
  intro h
  cases ids with
  | nil => exact absurd rfl h
  | cons x xs => rfl

/-- C3: with `concurrency` workers, `runs` iterations per worker and the
given batch list, and no transport error (the ambient `respond` is total),
the number of samples in the final results collection is exactly
`concurrency × runs × batch count`. -/
theorem run_load_test_request_count (respond : Nat → Nat → List String → Response)
    (concurrency runs : Nat) (batches : List (List String)) :
    (run_load_test_results respond concurrency runs batches).length =
      concurrency * runs * batches.length := by
  simp [run_load_test_results, List.length_flatMap, Function.comp_def,
    worker_results_length, sum_map_const, Nat.mul_assoc]

/-- C5: on the empty sample collection the summary computation fails
(`statistics.mean` raises `StatisticsError`); no summary — in particular no
zero statistic — is produced. -/
theorem print_summary_empty : print_summary ([] : List ℚ) = none := rfl

/-- C6: for every completed request, the elapsed time is returned as a
sample regardless of the response status, and exactly when the status is not
the success code 200 a single non-fatal stderr warning is emitted carrying
the status, the elapsed milliseconds and the payload size; there is no
retry — one call yields exactly one measurement. -/
theorem request_once_spec (status : Nat) (elapsed : ℚ) (payloadLen : Nat) :
    (request_once status elapsed payloadLen).elapsed = elapsed ∧
    ((request_once status elapsed payloadLen).stderr ≠ [] ↔ status ≠ 200) ∧
    ∀ w ∈ (request_once status elapsed payloadLen).stderr,
      w.status = status ∧ w.elapsedMs = elapsed * 1000 ∧ w.payloadBytes = payloadLen := by
  refine ⟨rfl, ?_, ?_⟩ <;> by_cases h : status = 200 <;> simp [request_once, h]

/-- C9: under the hypotheses the two `randint` calls guarantee — the first
draw in `30..365` (days before now for creation) and the second in `1..29`
(days added for the update) — the creation timestamp is strictly in the
past, the last-updated timestamp exceeds it by exactly the drawn offset,
which is between 1 and 29 days, and the last-updated timestamp is also
strictly in the past. -/
theorem generate_dates_spec (now : ℚ) (d u : Nat)
    (h1 : 30 ≤ d) (h2 : d ≤ 365) (h3 : 1 ≤ u) (h4 : u ≤ 29) :
    (generate_dates now d u).1 < now ∧
    (generate_dates now d u).1 < (generate_dates now d u).2 ∧
    (generate_dates now d u).2 - (generate_dates now d u).1 = (u : ℚ) ∧
    (1 : ℚ) ≤ (u : ℚ) ∧ (u : ℚ) ≤ 29 ∧
    (generate_dates now d u).2 < now := by
  have hd : (30 : ℚ) ≤ (d : ℚ) := by exact_mod_cast h1
  have hu1 : (1 : ℚ) ≤ (u : ℚ) := by exact_mod_cast h3
  have hu2 : (u : ℚ) ≤ (29 : ℚ) := by exact_mod_cast h4
  simp only [generate_dates]
  refine ⟨by linarith, by linarith, by ring, hu1, hu2, by linarith⟩

/-- Witness for C9 at `now = 0`, `d = 100`, `u = 5`. -/
theorem generate_dates_spec_witness :
    ((30 ≤ 100 ∧ 100 ≤ 365 ∧ 1 ≤ 5 ∧ 5 ≤ 29) ∧
      ((generate_dates 0 100 5).1 < 0 ∧
       (generate_dates 0 100 5).1 < (generate_dates 0 100 5).2 ∧
       (generate_dates 0 100 5).2 - (generate_dates 0 100 5).1 = ((5 : Nat) : ℚ) ∧
       (1 : ℚ) ≤ ((5 : Nat) : ℚ) ∧ ((5 : Nat) : ℚ) ≤ 29 ∧
       (generate_dates 0 100 5).2 < 0)) :=
  ⟨by decide, generate_dates_spec 0 100 5 (by decide) (by decide) (by decide) (by decide)⟩

/-- C10: on a sample collection of exactly one element the summary
computation also fails: `statistics.quantiles(..., method="inclusive")`
requires at least two data points, so no summary is produced for a
singleton either. -/
theorem print_summary_singleton (t : ℚ) : print_summary [t] = none := rfl

theorem pySorted_perm (l : List ℚ) : (pySorted l).Perm l :=
  List.perm_insertionSort _ l

theorem pySorted_sorted (l : List ℚ) : List.Sorted (· ≤ ·) (pySorted l) :=
  List.sorted_insertionSort _ l

theorem pySorted_ne_nil (l : List ℚ) (hne : l ≠ []) : pySorted l ≠ [] := by
  apply List.ne_nil_of_length_pos
  rw [(pySorted_perm l).length_eq]
  exact List.length_pos.mpr hne

/-- Python's `min` over a non-empty list is the head of the sorted list. -/
theorem pyMin_eq_head (l : List ℚ) : pyMin l = (pySorted l).head? := by
  rcases eq_or_ne l [] with rfl | hne
  · rfl
  · obtain ⟨a, t, hs⟩ := List.exists_cons_of_ne_nil (pySorted_ne_nil l hne)
    rw [hs, List.head?_cons, pyMin,
      List.min?_eq_some_iff (fun a => le_refl a) min_choice (fun a b c => le_min_iff)]
    constructor
    · exact (pySorted_perm l).mem_iff.mp (hs ▸ List.mem_cons_self a t)
    · intro y hy
      have hys : y ∈ pySorted l := (pySorted_perm l).mem_iff.mpr hy
      rw [hs] at hys
      rcases List.mem_cons.mp hys with rfl | hyt
      · exact le_refl y
      · have hsort := pySorted_sorted l
        rw [hs, List.sorted_cons] at hsort
        exact hsort.1 y hyt

/-- Python's `max` over a non-empty list is the last of the sorted list. -/
theorem pyMax_eq_getLast (l : List ℚ) : pyMax l = (pySorted l).getLast? := by
  rcases eq_or_ne l [] with rfl | hne
  · rfl
  · have hsne := pySorted_ne_nil l hne
    obtain ⟨ys, hs⟩ := List.getLast?_eq_some_iff.mp
      (List.getLast?_eq_getLast (pySorted l) hsne)
    rw [List.getLast?_eq_getLast (pySorted l) hsne, pyMax,
      List.max?_eq_some_iff (fun a => le_refl a) max_choice (fun a b c => max_le_iff)]
    set b := (pySorted l).getLast hsne with hb
    constructor
    · exact (pySorted_perm l).mem_iff.mp (List.getLast_mem hsne)
    · intro y hy
      have hys : y ∈ pySorted l := (pySorted_perm l).mem_iff.mpr hy
      have hsort := pySorted_sorted l
      rw [hs] at hys hsort
      obtain ⟨-, -, hcross⟩ := List.pairwise_append.mp hsort
      rcases List.mem_append.mp hys with hmem | hmem
      · exact hcross y hmem b (List.mem_singleton_self b)
      · rw [List.mem_singleton.mp hmem]

/-- `statistics.median` agrees with the reference median (the average of the
sorted data at the two, possibly equal, middle positions). -/
theorem pyMedian_eq_refMedian (l : List ℚ) : pyMedian l = refMedian l := by
  rcases eq_or_ne l [] with rfl | hne
  · rfl
  · have hlen : l.length ≠ 0 := fun h0 => hne (List.length_eq_zero.mp h0)
    simp only [pyMedian, refMedian, if_neg hlen, if_neg hne]
    by_cases hpar : l.length % 2 = 1
    · rw [if_pos hpar]
      have hidx : (l.length - 1) / 2 = l.length / 2 := by omega
      rw [hidx, add_self_div_two]
    · rw [if_neg hpar]
      have hidx : l.length / 2 - 1 = (l.length - 1) / 2 := by omega
      rw [hidx]

/-- The reference 95th percentile is cut point index 18 of the 19 points
`statistics.quantiles(..., n=20, method="inclusive")` computes. -/
theorem refP95_eq_pyQuantiles (l : List ℚ) :
    refP95 l = (pyQuantiles20 l).map (fun qs => qs.getD 18 0) := by
  by_cases h : l.length < 2
  · rw [refP95, pyQuantiles20]
    rw [if_pos h, if_pos h]
    rfl
  · rw [refP95, pyQuantiles20]
    rw [if_neg h, if_neg h]
    simp only [Option.map_some']
    congr 1

/-- C4: on every non-empty sample collection the summary `print_summary`
computes agrees with the reference statistics: the request count is the
collection's length, and the mean, median, 95th percentile (inclusive
20-bucket linear interpolation, cut point index 18), minimum and maximum
each equal the reference statistic scaled by 1000.  (On a single sample both
sides are undefined: the inclusive quantile method needs two data points.) -/
theorem print_summary_eq_refSummary (l : List ℚ) (h : l ≠ []) :
    print_summary l = refSummary l := by
  have hlen : l.length ≠ 0 := fun h0 => h (List.length_eq_zero.mp h0)
  have hmean : pyMean l = refMean l := by
    rw [pyMean, refMean, if_neg hlen, if_neg h]
  simp only [print_summary, refSummary, hmean, pyMedian_eq_refMedian,
    pyMin_eq_head, pyMax_eq_getLast]
  rcases hq : pyQuantiles20 l with _ | qs
  · have hr : refP95 l = none := by rw [refP95_eq_pyQuantiles, hq]; rfl
    rw [hr]
    rcases refMean l with _ | m
    · rfl
    · rcases refMedian l with _ | md <;> rfl
  · have hr : refP95 l = some (qs.getD 18 0) := by
      rw [refP95_eq_pyQuantiles, hq]; rfl
    rw [hr]
    rcases refMean l with _ | m
    · rfl
    · rcases refMedian l with _ | md <;> rfl

/-- Witness for C4 at the two-sample collection `[1, 2]`. -/
theorem print_summary_eq_refSummary_witness :
    (([1, 2] : List ℚ) ≠ []) ∧ print_summary [1, 2] = refSummary [1, 2] :=
  ⟨List.cons_ne_nil _ _, print_summary_eq_refSummary [1, 2] (List.cons_ne_nil _ _)⟩

theorem pyChoice_mem (l : List String) (hl : l ≠ []) (k : Nat) : pyChoice l k ∈ l := by
  have hpos : 0 < l.length := List.length_pos.mpr hl
  have hlt : k % l.length < l.length := Nat.mod_lt _ hpos
  rw [pyChoice, List.getD_eq_getElem _ _ hlt]
  exact List.getElem_mem hlt

theorem seedProducts_map_id (leafs : List String) (rs : RandomStream) (now : ℚ)
    (sellers : List String) (per idx : Nat) :
    (seedProducts (create_product leafs rs now) sellers per idx).map Product.id =
      (List.range' idx (sellers.length * per)).map (fun i => "MLA" ++ toString i) := by
  induction sellers generalizing idx with
  | nil => simp [seedProducts]
  | cons s rest ih =>
    have hsplit : List.range' idx ((s :: rest).length * per) =
        List.range' idx per ++ List.range' (idx + per) (rest.length * per) := by
      rw [List.length_cons, Nat.add_one_mul]
      have := List.range'_append idx per (rest.length * per) 1
      simp only [Nat.one_mul] at this
      exact this.symm
    rw [hsplit]
    simp only [seedProducts, List.map_append, List.map_map, ih,
      List.range'_eq_map_range]
    congr 1

theorem seedProducts_map_seller (leafs : List String) (rs : RandomStream) (now : ℚ)
    (sellers : List String) (per idx : Nat) :
    (seedProducts (create_product leafs rs now) sellers per idx).map Product.seller_id =
      sellers.flatMap (fun s => List.replicate per s) := by
  induction sellers generalizing idx with
  | nil => simp [seedProducts]
  | cons s rest ih =>
    simp only [seedProducts, List.map_append, List.map_map, ih, List.flatMap_cons]
    congr 1
    simp [create_product, Function.comp_def, List.map_const']

theorem seedProducts_category_mem (leafs : List String) (rs : RandomStream) (now : ℚ)
    (hl : leafs ≠ []) (sellers : List String) (per idx : Nat) :
    ∀ p ∈ seedProducts (create_product leafs rs now) sellers per idx,
      p.category_id ∈ leafs := by
  induction sellers generalizing idx with
  | nil => simp [seedProducts]
  | cons s rest ih =>
    intro p hp
    rcases List.mem_append.mp hp with hin | hin
    · rcases List.mem_map.mp hin with ⟨j, _, rfl⟩
      exact pyChoice_mem leafs hl _
    · exact ih _ p hin

/-- C8: for every seller count `S` and products-per-seller `P` (under the
configured 5×10 categories), the seeder generates exactly `S × P` products;
their identifiers are `MLA1 .. MLA{S×P}` in order, formed from the strictly
increasing global index `1..S×P`; the seller assignment is each of the `S`
generated sellers in turn with exactly `P` consecutive products; and every
product's `category_id` is one of the generated leaf category ids. -/
theorem productSeeder_run_spec (S P : Nat) (rs : RandomStream) (now : ℚ) :
    (productSeeder_run S P 5 10 rs now).length = S * P ∧
    (productSeeder_run S P 5 10 rs now).map Product.id =
      (List.range' 1 (S * P)).map (fun i => "MLA" ++ toString i) ∧
    (productSeeder_run S P 5 10 rs now).map Product.seller_id =
      (generate_seller_ids S).flatMap (fun s => List.replicate P s) ∧
    ∀ p ∈ productSeeder_run S P 5 10 rs now,
      p.category_id ∈ (create_categories 5 10).2 := by
  have hsl : (generate_seller_ids S).length = S := by
    simp [generate_seller_ids]
  have hid := seedProducts_map_id (create_categories 5 10).2 rs now
    (generate_seller_ids S) P 1
  rw [hsl] at hid
  have hleafs : (create_categories 5 10).2 ≠ [] := by
    have h50 : (create_categories 5 10).2.length = 50 := by decide
    exact List.ne_nil_of_length_pos (by rw [h50]; decide)
  refine ⟨?_, hid, seedProducts_map_seller _ rs now _ P 1, ?_⟩
  · have := congrArg List.length hid
    simpa [productSeeder_run] using this
  · exact fun p hp => seedProducts_category_mem _ rs now hleafs _ P 1 p hp

/-- C7: with the configured 5 roots and 10 leaves per root, the category
factory produces exactly the 5 root categories (the entries whose
`path_from_root` is the one-entry list of themselves), each root's children
list is exactly its 10 generated leaf ids, the returned leaf-id list has
exactly 50 distinct entries, and every leaf's `path_from_root` has exactly
two entries: its root followed by itself. -/
theorem create_categories_shape :
    (((create_categories 5 10).1.filter
        (fun p => p.2.path_from_root.length = 1)).map (fun p => p.2.id)) =
      (List.range' 1 5).map rootId ∧
    (∀ r ∈ List.range' 1 5,
      (create_categories 5 10).1.lookup (rootId r) =
        some ⟨rootId r, "Root Category " ++ toString r, [rootId r],
          (List.range' 1 10).map (leafId r)⟩) ∧
    (create_categories 5 10).2.length = 50 ∧
    (create_categories 5 10).2.Nodup ∧
    (∀ lid ∈ (create_categories 5 10).2,
      ∃ r ∈ List.range' 1 5,
        ((create_categories 5 10).1.lookup lid).map Category.path_from_root =
          some [rootId r, lid]) :=
  ⟨by decide, by decide, by decide, by decide, by decide⟩

end MeliDiscount
